import Mathlib

/-!
# Verification of the InfoCuy backend authorization and CRUD handlers

This development gives a shallow embedding of the Go HTTP handlers of the
InfoCuy backend.  The repository contains several variants of the same
handler file:

* `main.go` (the standalone server) — embedded here with the `main` prefix;
* `api/api.go` (the Vercel handler, package `handler`) — embedded with the
  `api` prefix;
* an earlier unnamed standalone variant (`part_000`) — embedded with the
  `v0` prefix where it differs from `main.go`.

MongoDB collections are modelled as lists of documents in natural
(insertion) order; `FindOne` is `List.find?`, `InsertOne` appends,
`UpdateOne` / `DeleteOne` act on the first document matching the filter
(`_id` is unique in MongoDB, so at most one document matches an `_id`
filter).  A failed `Decode` in Go leaves the target struct at its zero
value; handlers that ignore the `Decode` error are embedded with
`Option.getD` applied to the zero value.  `primitive.ObjectID` is modelled
as a natural number, `0` standing for the all-zero `NilObjectID`.
`float64` coordinates are inert payload (never computed with), modelled as
integers.  JSON serialization of a Go slice is modelled as
`Option (List _)`: `none` is the nil slice, which `encoding/json`
serializes as JSON `null`, while `some l` is a non-nil slice serialized as
an array.
-/

/-- `Coordinates` struct of the source (`lat`, `lng`). -/
structure Coordinates where
  lat : Int
  lng : Int
deriving DecidableEq, Repr

/-- `Location` struct of the source: a map annotation.  `id` models
`primitive.ObjectID`. -/
structure Location where
  id : Nat
  name : String
  category : String
  coordinates : Coordinates
  address : String
  createdBy : String
deriving DecidableEq, Repr

/-- `User` struct of the source: a registered account. -/
structure User where
  id : Nat
  email : String
  password : String
  role : String
deriving DecidableEq, Repr

/-- `AuthInput` struct: body of `/register` and `/login`. -/
structure AuthInput where
  email : String
  password : String
deriving DecidableEq, Repr

/-- `RoleInput` struct: body of `PUT /users/:id/role`. -/
structure RoleInput where
  role : String
deriving DecidableEq, Repr

/-- The zero value of Go's `User` struct (what a failed `Decode` leaves). -/
def zeroUser : User := ⟨0, "", "", ""⟩

/-- The zero value of Go's `Location` struct. -/
def zeroLocation : Location := ⟨0, "", "", ⟨0, 0⟩, "", ""⟩

/-- The two MongoDB collections the handlers read and write:
`userCollection` (database `geo_db`, collection `user`) and
`geoCollection` (database `geo_db`, collection `geo_data`). -/
structure DB where
  userCollection : List User
  geoCollection : List Location
deriving DecidableEq, Repr

/-- `UpdateOne`: rewrite the first element satisfying the filter `p`
(an `_id` filter matches at most one document). -/
def updateFirst {α : Type} (p : α → Bool) (f : α → α) : List α → List α
  | [] => []
  | x :: xs => if p x then f x :: xs else x :: updateFirst p f xs

/-- `DeleteOne`: remove the first element satisfying the filter `p`. -/
def eraseFirst {α : Type} (p : α → Bool) : List α → List α
  | [] => []
  | x :: xs => if p x then xs else x :: eraseFirst p xs

/-- One hexadecimal digit, as accepted by `primitive.ObjectIDFromHex`. -/
def isHexDigit (c : Char) : Bool :=
  decide (('0' ≤ c ∧ c ≤ '9') ∨ ('a' ≤ c ∧ c ≤ 'f') ∨ ('A' ≤ c ∧ c ≤ 'F'))

/-- Numeric value of a hexadecimal digit. -/
def hexDigitVal (c : Char) : Nat :=
  if '0' ≤ c ∧ c ≤ '9' then c.toNat - '0'.toNat
  else if 'a' ≤ c ∧ c ≤ 'f' then c.toNat - 'a'.toNat + 10
  else if 'A' ≤ c ∧ c ≤ 'F' then c.toNat - 'A'.toNat + 10
  else 0

/-- Whether a string is a valid 24-character hexadecimal ObjectID literal. -/
def isValidObjectIDHex (s : String) : Bool :=
  s.data.length == 24 && s.data.all isHexDigit

/-- `primitive.ObjectIDFromHex` with the error discarded, as every handler
does (`objID, _ := primitive.ObjectIDFromHex(idParam)`): a valid
24-character hex string parses to its value, anything else yields the
all-zero `NilObjectID`, modelled as `0`. -/
def ObjectIDFromHex (s : String) : Nat :=
  if isValidObjectIDHex s then s.data.foldl (fun a c => a * 16 + hexDigitVal c) 0
  else 0

/-- Outcome of `POST /register`. -/
inductive RegisterResult where
  /-- 201 with the created account. -/
  | created (u : User)
  /-- 400 "Email sudah terdaftar!". -/
  | duplicate
deriving DecidableEq, Repr

/-- `POST /register` of `main.go` (and of the `part_000` variant, which is
identical): `FindOne` by email; if the lookup succeeds (`err == nil`) fail
as duplicate, otherwise insert a new `User` with the submitted email and
password and role forced to `"user"`.  `freshId` models
`primitive.NewObjectID()`. -/
def mainRegister (input : AuthInput) (freshId : Nat) (db : DB) :
    RegisterResult × DB :=
  match db.userCollection.find? (fun u => u.email == input.email) with
  | some _ => (.duplicate, db)
  | none =>
    let newUser : User := ⟨freshId, input.email, input.password, "user"⟩
    (.created newUser, { db with userCollection := db.userCollection ++ [newUser] })

/-- `POST /register` of `api/api.go`: the `FindOne ... Decode` error is
ignored (a failed decode leaves `existingUser` at the zero value) and the
duplicate test is `existingUser.Email != ""`. -/
def apiRegister (input : AuthInput) (freshId : Nat) (db : DB) :
    RegisterResult × DB :=
  let existingUser :=
    (db.userCollection.find? (fun u => u.email == input.email)).getD zeroUser
  if existingUser.email != "" then (.duplicate, db)
  else
    let newUser : User := ⟨freshId, input.email, input.password, "user"⟩
    (.created newUser, { db with userCollection := db.userCollection ++ [newUser] })

/-- Outcome of `POST /login`. -/
inductive LoginResult where
  /-- 200 with the full matched account (password field included). -/
  | ok (u : User)
  /-- 401 "Email atau Password salah". -/
  | invalidCredentials
deriving DecidableEq, Repr

/-- `POST /login`, identical in all variants: `FindOne` on the conjunction
of the email and password filters; a match returns the full account. -/
def postLogin (input : AuthInput) (db : DB) : LoginResult :=
  match db.userCollection.find?
      (fun u => u.email == input.email && u.password == input.password) with
  | some u => .ok u
  | none => .invalidCredentials

/-- Response of `GET /locations`, as the Go slice value handed to
`c.JSON`: `none` is the nil slice (serialized as JSON `null`), `some l` a
non-nil slice (serialized as an array). -/
def foldLocations (geo : List Location) : Option (List Location) :=
  geo.foldl (fun acc loc => some (acc.getD [] ++ [loc])) none

/-- `GET /locations` of `main.go`: the cursor loop appends into a nil
slice, then `if locations == nil { locations = []Location{} }` normalizes
the empty case to a non-nil empty slice.  The handler reads no identity
header (public). -/
def mainGetLocations (db : DB) : Option (List Location) :=
  let locations := foldLocations db.geoCollection
  some (locations.getD [])

/-- `GET /locations` of `api/api.go`: same nil-normalization as
`main.go`. -/
def apiGetLocations (db : DB) : Option (List Location) :=
  let locations := foldLocations db.geoCollection
  some (locations.getD [])

/-- `GET /locations` of the `part_000` variant: the cursor loop result is
passed to `c.JSON` with NO nil-normalization, so an empty store serializes
the nil slice. -/
def v0GetLocations (db : DB) : Option (List Location) :=
  foldLocations db.geoCollection

/-- Outcome of `POST /locations`. -/
inductive CreateLocationResult where
  /-- 201 with the created record. -/
  | created (l : Location)
  /-- 401 "Anda harus login!". -/
  | unauthenticated
deriving DecidableEq, Repr

/-- `POST /locations`, identical in all variants: reject with 401 iff the
`X-User-Email` header is the empty string (an absent header reads as `""`);
otherwise overwrite the bound body's `ID` with a fresh ObjectID and its
`CreatedBy` with the header value verbatim, and insert.  `userCollection`
is never consulted: the handler takes the whole `DB` but only its
`geoCollection` is read or written.  (`newLocation` is the body as bound by
`ShouldBindJSON`; an unparseable body is a separate 400 path before any of
this logic and is not modelled.) -/
def postLocations (userEmail : String) (newLocation : Location) (freshId : Nat)
    (db : DB) : CreateLocationResult × DB :=
  if userEmail == "" then (.unauthenticated, db)
  else
    let newLocation := { newLocation with id := freshId, createdBy := userEmail }
    (.created newLocation, { db with geoCollection := db.geoCollection ++ [newLocation] })

/-- Outcome of `PUT /locations/:id` and `DELETE /locations/:id`. -/
inductive MutResult where
  /-- 200. -/
  | ok
  /-- 401 "User tidak dikenali" (`main.go` variant only). -/
  | unauthenticated
  /-- 404 "Lokasi tidak ditemukan" (`main.go` variant only). -/
  | notFound
  /-- 403. -/
  | forbidden
deriving DecidableEq, Repr

/-- The `$set` document of the location update: only `name`, `category`,
`coordinates` and `address` are written. -/
def setLocationFields (updateData : Location) (loc : Location) : Location :=
  { loc with
      name := updateData.name
      category := updateData.category
      coordinates := updateData.coordinates
      address := updateData.address }

/-- `PUT /locations/:id` of `main.go` (identical in `part_000`): parse the
id discarding the error; resolve the requestor by the `X-User-Email`
header, failing 401 if no account matches; load the target location,
failing 404 if absent; fail 403 unless the requestor is admin or the
record's creator; else `UpdateOne` with the `$set` of
`setLocationFields`.  (`updateData` is the body as bound by
`ShouldBindJSON`; an unparseable body is a separate 400 path.) -/
def mainPutLocation (idParam requestorEmail : String) (updateData : Location)
    (db : DB) : MutResult × DB :=
  let objID := ObjectIDFromHex idParam
  match db.userCollection.find? (fun u => u.email == requestorEmail) with
  | none => (.unauthenticated, db)
  | some requestor =>
    match db.geoCollection.find? (fun l => l.id == objID) with
    | none => (.notFound, db)
    | some existingLoc =>
      if requestor.role != "admin" && existingLoc.createdBy != requestor.email then
        (.forbidden, db)
      else
        let geo := updateFirst (fun l => l.id == objID)
          (setLocationFields updateData) db.geoCollection
        (.ok, { db with geoCollection := geo })

/-- `DELETE /locations/:id` of `main.go` (identical in `part_000`): same
resolution, lookup and access check as the update, then `DeleteOne`. -/
def mainDeleteLocation (idParam requestorEmail : String) (db : DB) :
    MutResult × DB :=
  let objID := ObjectIDFromHex idParam
  match db.userCollection.find? (fun u => u.email == requestorEmail) with
  | none => (.unauthenticated, db)
  | some requestor =>
    match db.geoCollection.find? (fun l => l.id == objID) with
    | none => (.notFound, db)
    | some existingLoc =>
      if requestor.role != "admin" && existingLoc.createdBy != requestor.email then
        (.forbidden, db)
      else
        let geo := eraseFirst (fun l => l.id == objID) db.geoCollection
        (.ok, { db with geoCollection := geo })

/-- `PUT /locations/:id` of `api/api.go`: both `Decode` errors are
ignored, so an unresolved requestor and an absent location each stand at
the zero value; there is no 401 and no 404 branch, only the access check
followed by `UpdateOne`. -/
def apiPutLocation (idParam requestorEmail : String) (updateData : Location)
    (db : DB) : MutResult × DB :=
  let objID := ObjectIDFromHex idParam
  let requestor :=
    (db.userCollection.find? (fun u => u.email == requestorEmail)).getD zeroUser
  let existingLoc :=
    (db.geoCollection.find? (fun l => l.id == objID)).getD zeroLocation
  if requestor.role != "admin" && existingLoc.createdBy != requestor.email then
    (.forbidden, db)
  else
    let geo := updateFirst (fun l => l.id == objID)
      (setLocationFields updateData) db.geoCollection
    (.ok, { db with geoCollection := geo })

/-- `DELETE /locations/:id` of `api/api.go`: like `apiPutLocation` but
ending in `DeleteOne`; again no 401 and no 404 branch. -/
def apiDeleteLocation (idParam requestorEmail : String) (db : DB) :
    MutResult × DB :=
  let objID := ObjectIDFromHex idParam
  let requestor :=
    (db.userCollection.find? (fun u => u.email == requestorEmail)).getD zeroUser
  let existingLoc :=
    (db.geoCollection.find? (fun l => l.id == objID)).getD zeroLocation
  if requestor.role != "admin" && existingLoc.createdBy != requestor.email then
    (.forbidden, db)
  else
    let geo := eraseFirst (fun l => l.id == objID) db.geoCollection
    (.ok, { db with geoCollection := geo })

/-- `funcIsAdmin` of `main.go` (identical in `part_000`): resolve the
email ignoring the `Decode` error — an unmatched email leaves the zero
`User` — and test `u.Role == "admin"`.  `api/api.go` inlines exactly this
check in each admin handler. -/
def funcIsAdmin (db : DB) (email : String) : Bool :=
  let u := (db.userCollection.find? (fun u => u.email == email)).getD zeroUser
  u.role == "admin"

/-- Outcome of `GET /users`. -/
inductive UsersResult where
  /-- 200 with the user list (`none` = nil slice = JSON `null`). -/
  | ok (us : Option (List User))
  /-- 403 "Khusus Admin!". -/
  | forbidden
deriving DecidableEq, Repr

/-- Cursor loop of `GET /users`: append every account into a nil slice. -/
def foldUsers (users : List User) : Option (List User) :=
  users.foldl (fun acc u => some (acc.getD [] ++ [u])) none

/-- `GET /users` of `main.go`: 403 unless `funcIsAdmin` holds for the
`X-User-Email` header, else return all accounts, normalizing the nil slice
to an empty one.  `api/api.go` is identical with the admin check inlined.
There is no 401 branch: an absent, empty, or unknown header goes through
the same `funcIsAdmin` test. -/
def mainGetUsers (requestorEmail : String) (db : DB) : UsersResult :=
  if !funcIsAdmin db requestorEmail then .forbidden
  else .ok (some ((foldUsers db.userCollection).getD []))

/-- Outcome of the admin mutations (`PUT /users/:id/role`,
`DELETE /users/:id`). -/
inductive AdminMutResult where
  /-- 200. -/
  | ok
  /-- 403 "Khusus Admin!". -/
  | forbidden
deriving DecidableEq, Repr

/-- `PUT /users/:id/role` of `main.go`: 403 unless `funcIsAdmin` holds for
the header email; else parse the id discarding the error, bind the
`RoleInput` body (its error is also discarded: `c.ShouldBindJSON(&input)`
with no check — modelled by taking the bound value, the zero `RoleInput`
when the body did not bind), and `UpdateOne` setting `role` to the
submitted string with no validation.  `api/api.go` is identical with the
admin check inlined.  There is no 401 branch. -/
def mainPutUserRole (requestorEmail idParam : String) (input : RoleInput)
    (db : DB) : AdminMutResult × DB :=
  if !funcIsAdmin db requestorEmail then (.forbidden, db)
  else
    let objID := ObjectIDFromHex idParam
    let users := updateFirst (fun u => u.id == objID)
      (fun u => { u with role := input.role }) db.userCollection
    (.ok, { db with userCollection := users })

/-- `DELETE /users/:id` of `main.go`: 403 unless `funcIsAdmin` holds for
the header email; else parse the id discarding the error and `DeleteOne`.
`api/api.go` is identical with the admin check inlined.  There is no 401
branch. -/
def mainDeleteUser (requestorEmail idParam : String) (db : DB) :
    AdminMutResult × DB :=
  if !funcIsAdmin db requestorEmail then (.forbidden, db)
  else
    let objID := ObjectIDFromHex idParam
    let users := eraseFirst (fun u => u.id == objID) db.userCollection
    (.ok, { db with userCollection := users })

/-- Decomposition of a successful `FindOne`: the store splits around the
first match, and `UpdateOne` rewrites exactly that element while
`DeleteOne` removes exactly it. -/
theorem find?_split {α : Type} (p : α → Bool) (f : α → α) :
    ∀ (l : List α) (x : α), l.find? p = some x →
      ∃ pre post, l = pre ++ x :: post ∧ (∀ y ∈ pre, p y = false) ∧
        updateFirst p f l = pre ++ f x :: post ∧ eraseFirst p l = pre ++ post := by
  intro l
  induction l with
  | nil => intro x hx; simp [List.find?] at hx
  | cons a as ih =>
    intro x hx
    by_cases ha : p a
    · refine ⟨[], as, ?_, by simp, ?_, ?_⟩
      · rw [List.find?_cons_of_pos _ ha] at hx
        simp_all
      · rw [List.find?_cons_of_pos _ ha] at hx
        simp only [Option.some.injEq] at hx
        subst hx
        simp [updateFirst, ha]
      · simp [eraseFirst, ha]
    · rw [List.find?_cons_of_neg _ ha] at hx
      obtain ⟨pre, post, hsplit, hpre, hupd, hdel⟩ := ih x hx
      refine ⟨a :: pre, post, by simp [hsplit], ?_, ?_, ?_⟩
      · intro y hy
        rcases List.mem_cons.mp hy with rfl | hy
        · simpa using ha
        · exact hpre y hy
      · simp [updateFirst, ha, hupd]
      · simp [eraseFirst, ha, hdel]

/-- A `FindOne` miss makes `UpdateOne` a no-op. -/
theorem updateFirst_of_find?_none {α : Type} (p : α → Bool) (f : α → α) :
    ∀ l : List α, l.find? p = none → updateFirst p f l = l := by
  intro l
  induction l with
  | nil => intro _; rfl
  | cons a as ih =>
    intro hx
    rw [List.find?_eq_none] at hx
    have ha : p a = false := by simpa using hx a (by simp)
    have has : as.find? p = none := by
      rw [List.find?_eq_none]
      intro y hy
      exact hx y (List.mem_cons_of_mem _ hy)
    simp [updateFirst, ha, ih has]

/-- A `FindOne` miss makes `DeleteOne` a no-op. -/
theorem eraseFirst_of_find?_none {α : Type} (p : α → Bool) :
    ∀ l : List α, l.find? p = none → eraseFirst p l = l := by
  intro l
  induction l with
  | nil => intro _; rfl
  | cons a as ih =>
    intro hx
    rw [List.find?_eq_none] at hx
    have ha : p a = false := by simpa using hx a (by simp)
    have has : as.find? p = none := by
      rw [List.find?_eq_none]
      intro y hy
      exact hx y (List.mem_cons_of_mem _ hy)
    simp [eraseFirst, ha, ih has]

/-- The cursor loop appending into a non-nil slice accumulates the whole
list. -/
theorem foldl_some_acc {α : Type} :
    ∀ (xs l : List α),
      xs.foldl (fun acc x => some (acc.getD [] ++ [x])) (some l) = some (l ++ xs) := by
  intro xs
  induction xs with
  | nil => intro l; simp
  | cons x xs ih =>
    intro l
    simp only [List.foldl_cons, Option.getD_some]
    rw [ih (l ++ [x])]
    simp

/-- The `GET /locations` cursor loop yields the nil slice exactly on an
empty store, and the whole store otherwise. -/
theorem foldLocations_eq (geo : List Location) :
    foldLocations geo = if geo = [] then none else some geo := by
  cases geo with
  | nil => rfl
  | cons x xs =>
    simp only [foldLocations, List.foldl_cons, if_neg (List.cons_ne_nil x xs)]
    simpa using foldl_some_acc xs [x]

/-- C5, counterexample: in the `part_000` variant, listing locations over
an empty Location Store hands the nil slice to `c.JSON`, which serializes
as JSON `null` — not an empty sequence. -/
theorem C5_counterexample :
    v0GetLocations ⟨[], []⟩ = none := rfl

/-- C5, amended: the `main.go` and `api/api.go` list handlers return every
stored `LocationRecord` and serialize an empty store as an empty sequence
(`some []`), requiring no identity (the handlers take no header argument);
the `part_000` variant also returns every stored record but serializes an
empty store as `null` (the nil slice). -/
theorem C5_list_locations (db : DB) :
    mainGetLocations db = some db.geoCollection ∧
    apiGetLocations db = some db.geoCollection ∧
    v0GetLocations db =
      (if db.geoCollection = [] then none else some db.geoCollection) := by
  have h := foldLocations_eq db.geoCollection
  refine ⟨?_, ?_, h⟩ <;>
  · simp only [mainGetLocations, apiGetLocations, h]
    by_cases hg : db.geoCollection = [] <;> simp [hg]

/-- C6: login succeeds iff some Account matches the submitted email and
password exactly; a success returns a full stored Account with exactly
those credentials (password field included), and any mismatch yields
`invalidCredentials`, which carries no account data. -/
theorem C6_login_exact_match (input : AuthInput) (db : DB) :
    ((∃ u, postLogin input db = .ok u) ↔
      ∃ u ∈ db.userCollection,
        u.email = input.email ∧ u.password = input.password) ∧
    (∀ u, postLogin input db = .ok u →
      u ∈ db.userCollection ∧
        u.email = input.email ∧ u.password = input.password) ∧
    (postLogin input db = .invalidCredentials ↔
      ∀ u ∈ db.userCollection,
        ¬(u.email = input.email ∧ u.password = input.password)) := by
  unfold postLogin
  cases hfind : db.userCollection.find?
      (fun u => u.email == input.email && u.password == input.password) with
  | none =>
    rw [List.find?_eq_none] at hfind
    simp only [Bool.and_eq_true, beq_iff_eq, not_and] at hfind
    refine ⟨?_, ?_, ?_⟩
    · simp only [reduceCtorEq, exists_false, false_iff]
      rintro ⟨u, hu, he, hp⟩
      exact hfind u hu he hp
    · simp
    · simp only [true_iff]
      intro u hu
      rintro ⟨he, hp⟩
      exact hfind u hu he hp
  | some v =>
    have hmem := List.mem_of_find?_eq_some hfind
    have hp := List.find?_some hfind
    simp only [Bool.and_eq_true, beq_iff_eq] at hp
    refine ⟨?_, ?_, ?_⟩
    · exact ⟨fun _ => ⟨v, hmem, hp⟩, fun _ => ⟨v, rfl⟩⟩
    · intro u hu
      simp only [LoginResult.ok.injEq] at hu
      subst hu
      exact ⟨hmem, hp⟩
    · simp only [reduceCtorEq, false_iff, not_forall]
      exact ⟨v, hmem, fun h => h ⟨hp.1, hp.2⟩⟩

/-- C3, counterexample: in `api/api.go`, when an Account with the empty
email exists, registering the empty email again does NOT fail as a
duplicate — the zero-value sentinel test `existingUser.Email != ""`
mistakes the match for a miss, and a second empty-email Account is
inserted. -/
theorem C3_counterexample :
    (∃ u ∈ ([⟨1, "", "p", "user"⟩] : List User), u.email = "") ∧
    apiRegister ⟨"", "q"⟩ 2 ⟨[⟨1, "", "p", "user"⟩], []⟩ =
      (.created ⟨2, "", "q", "user"⟩,
       ⟨[⟨1, "", "p", "user"⟩, ⟨2, "", "q", "user"⟩], []⟩) := by
  exact ⟨⟨⟨1, "", "p", "user"⟩, by simp, rfl⟩, rfl⟩

/-- C3, amended: the claim holds as stated for the `main.go` register
handler for every email, and for the `api/api.go` handler for every
non-empty email; in `api/api.go` a registration whose email is the empty
string always succeeds — even when an empty-email Account already exists —
inserting a second Account with that email. -/
theorem C3_register (input : AuthInput) (freshId : Nat) (db : DB) :
    ((∃ u ∈ db.userCollection, u.email = input.email) →
      mainRegister input freshId db = (.duplicate, db)) ∧
    ((∀ u ∈ db.userCollection, u.email ≠ input.email) →
      mainRegister input freshId db =
        (.created ⟨freshId, input.email, input.password, "user"⟩,
         { db with userCollection :=
             db.userCollection ++ [⟨freshId, input.email, input.password, "user"⟩] })) ∧
    (input.email ≠ "" → (∃ u ∈ db.userCollection, u.email = input.email) →
      apiRegister input freshId db = (.duplicate, db)) ∧
    ((∀ u ∈ db.userCollection, u.email ≠ input.email) →
      apiRegister input freshId db =
        (.created ⟨freshId, input.email, input.password, "user"⟩,
         { db with userCollection :=
             db.userCollection ++ [⟨freshId, input.email, input.password, "user"⟩] })) ∧
    (input.email = "" →
      apiRegister input freshId db =
        (.created ⟨freshId, input.email, input.password, "user"⟩,
         { db with userCollection :=
             db.userCollection ++ [⟨freshId, input.email, input.password, "user"⟩] })) := by
  refine ⟨?_, ?_, ?_, ?_, ?_⟩
  · rintro ⟨u, hu, he⟩
    unfold mainRegister
    cases hfind : db.userCollection.find? (fun v => v.email == input.email) with
    | some w => rfl
    | none =>
      rw [List.find?_eq_none] at hfind
      exact absurd (by simpa using he) (by simpa using hfind u hu)
  · intro h
    unfold mainRegister
    cases hfind : db.userCollection.find? (fun v => v.email == input.email) with
    | none => rfl
    | some w =>
      have hw := List.mem_of_find?_eq_some hfind
      have hweq : w.email = input.email := by simpa using List.find?_some hfind
      exact absurd hweq (h w hw)
  · rintro hne ⟨u, hu, he⟩
    unfold apiRegister
    cases hfind : db.userCollection.find? (fun v => v.email == input.email) with
    | some w =>
      have hweq : w.email = input.email := by simpa using List.find?_some hfind
      simp [hweq, hne]
    | none =>
      rw [List.find?_eq_none] at hfind
      exact absurd (by simpa using he) (by simpa using hfind u hu)
  · intro h
    unfold apiRegister
    cases hfind : db.userCollection.find? (fun v => v.email == input.email) with
    | none => simp [zeroUser]
    | some w =>
      have hw := List.mem_of_find?_eq_some hfind
      have hweq : w.email = input.email := by simpa using List.find?_some hfind
      exact absurd hweq (h w hw)
  · intro h0
    unfold apiRegister
    cases hfind : db.userCollection.find? (fun v => v.email == input.email) with
    | none => simp [zeroUser]
    | some w =>
      have hweq : w.email = input.email := by simpa using List.find?_some hfind
      simp [hweq, h0]

/-- C3, witness: a duplicate registration on `main.go` at a concrete
store, and an empty-email re-registration on `api/api.go` at the empty
store. -/
theorem C3_register_witness :
    mainRegister ⟨"a@x.com", "q"⟩ 2 ⟨[⟨1, "a@x.com", "p", "user"⟩], []⟩ =
      (.duplicate, ⟨[⟨1, "a@x.com", "p", "user"⟩], []⟩) ∧
    apiRegister ⟨"", "q"⟩ 2 ⟨[], []⟩ =
      (.created ⟨2, "", "q", "user"⟩, ⟨[⟨2, "", "q", "user"⟩], []⟩) := by
  constructor
  · exact (C3_register ⟨"a@x.com", "q"⟩ 2 ⟨[⟨1, "a@x.com", "p", "user"⟩], []⟩).1
      ⟨⟨1, "a@x.com", "p", "user"⟩, by simp, rfl⟩
  · exact (C3_register ⟨"", "q"⟩ 2 ⟨[], []⟩).2.2.2.2 rfl

/-- C4: with a non-empty `X-User-Email` header, location creation always
succeeds, stamping the fresh id and the header value verbatim into
`createdBy`; an absent or empty header (Go reads an absent header as `""`)
fails 401 and inserts nothing; and the outcome is entirely independent of
the Identity Store — no Account lookup happens on this path and
`userCollection` passes through untouched. -/
theorem C4_create_location (userEmail : String) (body : Location)
    (freshId : Nat) (db : DB) :
    (userEmail ≠ "" →
      postLocations userEmail body freshId db =
        (.created { body with id := freshId, createdBy := userEmail },
         { db with geoCollection :=
             db.geoCollection ++ [{ body with id := freshId, createdBy := userEmail }] })) ∧
    (userEmail = "" →
      postLocations userEmail body freshId db = (.unauthenticated, db)) ∧
    (∀ users : List User,
      (postLocations userEmail body freshId ⟨users, db.geoCollection⟩).1 =
        (postLocations userEmail body freshId db).1 ∧
      (postLocations userEmail body freshId ⟨users, db.geoCollection⟩).2.geoCollection =
        (postLocations userEmail body freshId db).2.geoCollection ∧
      (postLocations userEmail body freshId ⟨users, db.geoCollection⟩).2.userCollection =
        users) := by
  refine ⟨?_, ?_, ?_⟩
  · intro h
    simp [postLocations, h]
  · intro h
    simp [postLocations, h]
  · intro users
    by_cases h : userEmail = "" <;> simp [postLocations, h]

/-- C4, witness: creation with an unregistered header email
`"ghost@x.com"` over an empty Identity Store succeeds, and the empty
header is rejected. -/
theorem C4_create_location_witness :
    postLocations "ghost@x.com" ⟨0, "n", "c", ⟨1, 2⟩, "ad", ""⟩ 7 ⟨[], []⟩ =
      (.created ⟨7, "n", "c", ⟨1, 2⟩, "ad", "ghost@x.com"⟩,
       ⟨[], [⟨7, "n", "c", ⟨1, 2⟩, "ad", "ghost@x.com"⟩]⟩) ∧
    postLocations "" ⟨0, "n", "c", ⟨1, 2⟩, "ad", ""⟩ 7 ⟨[], []⟩ =
      (.unauthenticated, ⟨[], []⟩) := by
  constructor
  · exact (C4_create_location "ghost@x.com" ⟨0, "n", "c", ⟨1, 2⟩, "ad", ""⟩ 7
      ⟨[], []⟩).1 (by decide)
  · exact (C4_create_location "" ⟨0, "n", "c", ⟨1, 2⟩, "ad", ""⟩ 7
      ⟨[], []⟩).2.1 rfl

/-- C1: for a resolved requestor and an existing target record, location
update and delete (in both the `main.go` and `api/api.go` variants) allow
the operation iff the requestor's role is `"admin"` or the requestor's
email equals the record's `createdBy`; every other combination is rejected
with 403 and leaves both stores exactly as they were. -/
theorem C1_access_control (idParam requestorEmail : String)
    (updateData : Location) (db : DB) (requestor : User)
    (existingLoc : Location)
    (hreq : db.userCollection.find? (fun u => u.email == requestorEmail) =
      some requestor)
    (hloc : db.geoCollection.find? (fun l => l.id == ObjectIDFromHex idParam) =
      some existingLoc) :
    (¬(requestor.role = "admin" ∨ existingLoc.createdBy = requestor.email) →
      mainPutLocation idParam requestorEmail updateData db = (.forbidden, db) ∧
      mainDeleteLocation idParam requestorEmail db = (.forbidden, db) ∧
      apiPutLocation idParam requestorEmail updateData db = (.forbidden, db) ∧
      apiDeleteLocation idParam requestorEmail db = (.forbidden, db)) ∧
    ((requestor.role = "admin" ∨ existingLoc.createdBy = requestor.email) →
      (mainPutLocation idParam requestorEmail updateData db).1 = .ok ∧
      (mainDeleteLocation idParam requestorEmail db).1 = .ok ∧
      (apiPutLocation idParam requestorEmail updateData db).1 = .ok ∧
      (apiDeleteLocation idParam requestorEmail db).1 = .ok) := by
  constructor
  · intro hdeny
    rw [not_or] at hdeny
    have hc : (requestor.role != "admin" &&
        existingLoc.createdBy != requestor.email) = true := by
      simp [hdeny.1, hdeny.2]
    refine ⟨?_, ?_, ?_, ?_⟩ <;>
      simp [mainPutLocation, mainDeleteLocation, apiPutLocation,
        apiDeleteLocation, hreq, hloc, hc]
  · intro hallow
    have hc : (requestor.role != "admin" &&
        existingLoc.createdBy != requestor.email) = false := by
      rcases hallow with h | h <;> simp [h]
    refine ⟨?_, ?_, ?_, ?_⟩ <;>
      simp [mainPutLocation, mainDeleteLocation, apiPutLocation,
        apiDeleteLocation, hreq, hloc, hc]

/-- C1, witness: a resolved non-admin requestor `b@x.com` attacking a
record owned by `a@x.com` is refused by all four handlers with the store
untouched, and the same requestor succeeds on their own record. -/
theorem C1_access_control_witness :
    (DB.userCollection ⟨[⟨1, "b@x.com", "p", "user"⟩],
        [⟨0, "n", "c", ⟨1, 2⟩, "ad", "a@x.com"⟩]⟩).find?
      (fun u => u.email == "b@x.com") = some ⟨1, "b@x.com", "p", "user"⟩ ∧
    (DB.geoCollection ⟨[⟨1, "b@x.com", "p", "user"⟩],
        [⟨0, "n", "c", ⟨1, 2⟩, "ad", "a@x.com"⟩]⟩).find?
      (fun l => l.id == ObjectIDFromHex "zz") =
      some ⟨0, "n", "c", ⟨1, 2⟩, "ad", "a@x.com"⟩ ∧
    mainPutLocation "zz" "b@x.com" ⟨0, "m", "d", ⟨3, 4⟩, "e", "f"⟩
      ⟨[⟨1, "b@x.com", "p", "user"⟩], [⟨0, "n", "c", ⟨1, 2⟩, "ad", "a@x.com"⟩]⟩ =
      (.forbidden,
       ⟨[⟨1, "b@x.com", "p", "user"⟩], [⟨0, "n", "c", ⟨1, 2⟩, "ad", "a@x.com"⟩]⟩) ∧
    apiDeleteLocation "zz" "b@x.com"
      ⟨[⟨1, "b@x.com", "p", "user"⟩], [⟨0, "n", "c", ⟨1, 2⟩, "ad", "a@x.com"⟩]⟩ =
      (.forbidden,
       ⟨[⟨1, "b@x.com", "p", "user"⟩], [⟨0, "n", "c", ⟨1, 2⟩, "ad", "a@x.com"⟩]⟩) ∧
    (mainDeleteLocation "zz" "b@x.com"
      ⟨[⟨1, "b@x.com", "p", "user"⟩], [⟨0, "n", "c", ⟨1, 2⟩, "ad", "b@x.com"⟩]⟩).1 =
      .ok := by
  refine ⟨by decide, by decide, ?_, ?_, ?_⟩
  · exact ((C1_access_control "zz" "b@x.com" ⟨0, "m", "d", ⟨3, 4⟩, "e", "f"⟩
      ⟨[⟨1, "b@x.com", "p", "user"⟩], [⟨0, "n", "c", ⟨1, 2⟩, "ad", "a@x.com"⟩]⟩
      ⟨1, "b@x.com", "p", "user"⟩ ⟨0, "n", "c", ⟨1, 2⟩, "ad", "a@x.com"⟩
      (by decide) (by decide)).1 (by decide)).1
  · exact ((C1_access_control "zz" "b@x.com" ⟨0, "m", "d", ⟨3, 4⟩, "e", "f"⟩
      ⟨[⟨1, "b@x.com", "p", "user"⟩], [⟨0, "n", "c", ⟨1, 2⟩, "ad", "a@x.com"⟩]⟩
      ⟨1, "b@x.com", "p", "user"⟩ ⟨0, "n", "c", ⟨1, 2⟩, "ad", "a@x.com"⟩
      (by decide) (by decide)).1 (by decide)).2.2.2
  · exact ((C1_access_control "zz" "b@x.com" ⟨0, "m", "d", ⟨3, 4⟩, "e", "f"⟩
      ⟨[⟨1, "b@x.com", "p", "user"⟩], [⟨0, "n", "c", ⟨1, 2⟩, "ad", "b@x.com"⟩]⟩
      ⟨1, "b@x.com", "p", "user"⟩ ⟨0, "n", "c", ⟨1, 2⟩, "ad", "b@x.com"⟩
      (by decide) (by decide)).2 (by decide)).2.1

/-- C2, counterexample: in `api/api.go`, an update on an id held by no
record does NOT return 404 — the handler has no NotFound branch.  A
resolved admin requestor gets 200 on an empty Location Store. -/
theorem C2_counterexample :
    (DB.userCollection ⟨[⟨1, "a@x.com", "p", "admin"⟩], []⟩).find?
      (fun u => u.email == "a@x.com") = some ⟨1, "a@x.com", "p", "admin"⟩ ∧
    (∀ l ∈ (DB.geoCollection ⟨[⟨1, "a@x.com", "p", "admin"⟩], []⟩),
      l.id ≠ ObjectIDFromHex "000000000000000000000001") ∧
    apiPutLocation "000000000000000000000001" "a@x.com"
      ⟨0, "m", "d", ⟨3, 4⟩, "e", "f"⟩ ⟨[⟨1, "a@x.com", "p", "admin"⟩], []⟩ =
      (.ok, ⟨[⟨1, "a@x.com", "p", "admin"⟩], []⟩) ∧
    MutResult.ok ≠ MutResult.notFound := by
  refine ⟨by decide, by decide, by decide, by decide⟩

/-- C2, amended: for a resolved requestor and an id held by no record, the
`main.go` update and delete handlers return 404 with both stores
untouched, whatever the requestor's role; the `api/api.go` handlers never
return 404 on such a request — they answer 403 or 200 — though they too
leave both stores untouched (the update/delete matches no document). -/
theorem C2_update_delete_missing (idParam requestorEmail : String)
    (updateData : Location) (db : DB) (requestor : User)
    (hreq : db.userCollection.find? (fun u => u.email == requestorEmail) =
      some requestor)
    (hloc : ∀ l ∈ db.geoCollection, l.id ≠ ObjectIDFromHex idParam) :
    mainPutLocation idParam requestorEmail updateData db = (.notFound, db) ∧
    mainDeleteLocation idParam requestorEmail db = (.notFound, db) ∧
    (apiPutLocation idParam requestorEmail updateData db).1 ≠ .notFound ∧
    (apiDeleteLocation idParam requestorEmail db).1 ≠ .notFound ∧
    (apiPutLocation idParam requestorEmail updateData db).2 = db ∧
    (apiDeleteLocation idParam requestorEmail db).2 = db := by
  have hfind : db.geoCollection.find? (fun l => l.id == ObjectIDFromHex idParam) =
      none := by
    rw [List.find?_eq_none]
    intro l hl
    simpa using hloc l hl
  refine ⟨?_, ?_, ?_, ?_, ?_, ?_⟩
  · simp [mainPutLocation, hreq, hfind]
  · simp [mainDeleteLocation, hreq, hfind]
  · simp only [apiPutLocation, hreq, hfind, Option.getD_some, Option.getD_none]
    split <;> simp
  · simp only [apiDeleteLocation, hreq, hfind, Option.getD_some, Option.getD_none]
    split <;> simp
  · simp only [apiPutLocation, hreq, hfind, Option.getD_some, Option.getD_none]
    split
    · rfl
    · simp [updateFirst_of_find?_none _ _ _ hfind]
  · simp only [apiDeleteLocation, hreq, hfind, Option.getD_some, Option.getD_none]
    split
    · rfl
    · simp [eraseFirst_of_find?_none _ _ hfind]

/-- C2, witness: a resolved non-admin requestor updating a missing id gets
404 from `main.go` and never 404 from `api/api.go`, all stores
untouched. -/
theorem C2_update_delete_missing_witness :
    mainPutLocation "000000000000000000000001" "a@x.com"
      ⟨0, "m", "d", ⟨3, 4⟩, "e", "f"⟩ ⟨[⟨1, "a@x.com", "p", "user"⟩], []⟩ =
      (.notFound, ⟨[⟨1, "a@x.com", "p", "user"⟩], []⟩) ∧
    mainDeleteLocation "000000000000000000000001" "a@x.com"
      ⟨[⟨1, "a@x.com", "p", "user"⟩], []⟩ =
      (.notFound, ⟨[⟨1, "a@x.com", "p", "user"⟩], []⟩) ∧
    (apiPutLocation "000000000000000000000001" "a@x.com"
      ⟨0, "m", "d", ⟨3, 4⟩, "e", "f"⟩ ⟨[⟨1, "a@x.com", "p", "user"⟩], []⟩).1 ≠
      .notFound := by
  have h := C2_update_delete_missing "000000000000000000000001" "a@x.com"
    ⟨0, "m", "d", ⟨3, 4⟩, "e", "f"⟩ ⟨[⟨1, "a@x.com", "p", "user"⟩], []⟩
    ⟨1, "a@x.com", "p", "user"⟩ (by decide) (by decide)
  exact ⟨h.1, h.2.1, h.2.2.1⟩

/-- On a store decomposed around its first filter match, `FindOne` returns
that element, `UpdateOne` rewrites exactly it, and `DeleteOne` removes
exactly it. -/
theorem firstMatch_ops {α : Type} (p : α → Bool) (f : α → α) (x : α)
    (hx : p x = true) :
    ∀ (pre post : List α), (∀ y ∈ pre, p y = false) →
      (pre ++ x :: post).find? p = some x ∧
      updateFirst p f (pre ++ x :: post) = pre ++ f x :: post ∧
      eraseFirst p (pre ++ x :: post) = pre ++ post := by
  intro pre
  induction pre with
  | nil =>
    intro post _
    simp [List.find?_cons_of_pos _ hx, updateFirst, eraseFirst, hx]
  | cons a as ih =>
    intro post hpre
    have ha : p a = false := hpre a (by simp)
    have h' := ih post (fun y hy => hpre y (by simp [hy]))
    refine ⟨?_, ?_, ?_⟩
    · rw [List.cons_append, List.find?_cons_of_neg _ (by simp [ha]), h'.1]
    · simp [updateFirst, ha, h'.2.1]
    · simp [eraseFirst, ha, h'.2.2]

/-- C7: a permitted update (resolved requestor, target present, access
allowed) rewrites only the `name`, `category`, `coordinates` and `address`
fields of the target record; the target's `id` and `createdBy` and every
other record of both stores are exactly as before — in both the `main.go`
and the `api/api.go` variant.  The Location Store is given decomposed
around the target (`pre` holds no record with the requested id). -/
theorem C7_update_frame (idParam requestorEmail : String)
    (updateData : Location) (db : DB) (requestor : User)
    (existingLoc : Location) (pre post : List Location)
    (hreq : db.userCollection.find? (fun u => u.email == requestorEmail) =
      some requestor)
    (hsplit : db.geoCollection = pre ++ existingLoc :: post)
    (hpre : ∀ y ∈ pre, y.id ≠ ObjectIDFromHex idParam)
    (hid : existingLoc.id = ObjectIDFromHex idParam)
    (hallow : requestor.role = "admin" ∨ existingLoc.createdBy = requestor.email) :
    mainPutLocation idParam requestorEmail updateData db =
      (.ok, { db with geoCollection := pre ++
        { existingLoc with
            name := updateData.name
            category := updateData.category
            coordinates := updateData.coordinates
            address := updateData.address } :: post }) ∧
    apiPutLocation idParam requestorEmail updateData db =
      (.ok, { db with geoCollection := pre ++
        { existingLoc with
            name := updateData.name
            category := updateData.category
            coordinates := updateData.coordinates
            address := updateData.address } :: post }) := by
  have hx : (fun l => l.id == ObjectIDFromHex idParam) existingLoc = true := by
    simp [hid]
  have hpre' : ∀ y ∈ pre, (fun l => l.id == ObjectIDFromHex idParam) y = false := by
    intro y hy
    simpa using hpre y hy
  have hops := firstMatch_ops (fun l => l.id == ObjectIDFromHex idParam)
    (setLocationFields updateData) existingLoc hx pre post hpre'
  have hfind : db.geoCollection.find? (fun l => l.id == ObjectIDFromHex idParam) =
      some existingLoc := by rw [hsplit]; exact hops.1
  have hupd : updateFirst (fun l => l.id == ObjectIDFromHex idParam)
      (setLocationFields updateData) db.geoCollection =
      pre ++ setLocationFields updateData existingLoc :: post := by
    rw [hsplit]; exact hops.2.1
  have hc : (requestor.role != "admin" &&
      existingLoc.createdBy != requestor.email) = false := by
    rcases hallow with h | h <;> simp [h]
  constructor
  · simp [mainPutLocation, hreq, hfind, hc, hupd, setLocationFields]
  · simp [apiPutLocation, hreq, hfind, hc, hupd, setLocationFields]

/-- C7, witness: the owner `a@x.com` updates their record `id 5` while a
foreign record `id 6` sits beside it; only the four updatable fields of
record 5 change. -/
theorem C7_update_frame_witness :
    mainPutLocation "000000000000000000000005" "a@x.com"
      ⟨9, "new", "cat2", ⟨7, 8⟩, "addr2", "evil@x.com"⟩
      ⟨[⟨1, "a@x.com", "p", "user"⟩],
       [⟨6, "other", "c", ⟨1, 2⟩, "ad", "b@x.com"⟩,
        ⟨5, "old", "cat", ⟨3, 4⟩, "addr", "a@x.com"⟩]⟩ =
      (.ok, ⟨[⟨1, "a@x.com", "p", "user"⟩],
       [⟨6, "other", "c", ⟨1, 2⟩, "ad", "b@x.com"⟩,
        ⟨5, "new", "cat2", ⟨7, 8⟩, "addr2", "a@x.com"⟩]⟩) := by
  exact (C7_update_frame "000000000000000000000005" "a@x.com"
    ⟨9, "new", "cat2", ⟨7, 8⟩, "addr2", "evil@x.com"⟩
    ⟨[⟨1, "a@x.com", "p", "user"⟩],
     [⟨6, "other", "c", ⟨1, 2⟩, "ad", "b@x.com"⟩,
      ⟨5, "old", "cat", ⟨3, 4⟩, "addr", "a@x.com"⟩]⟩
    ⟨1, "a@x.com", "p", "user"⟩ ⟨5, "old", "cat", ⟨3, 4⟩, "addr", "a@x.com"⟩
    [⟨6, "other", "c", ⟨1, 2⟩, "ad", "b@x.com"⟩] []
    (by decide) (by decide) (by decide) (by decide) (by decide)).1

/-- C8: a role-update request by a resolved requestor whose role is not
`"admin"` is rejected 403 with the Identity Store untouched (so every
target keeps its role); an admin requestor's submitted role string —
whatever string it is, unvalidated — is written onto the target Account,
all its other fields and all other Accounts unchanged.  (`api/api.go`
inlines the identical admin check and write; there is no separate
behavior to distinguish.) -/
theorem C8_role_update (requestorEmail idParam : String) (input : RoleInput)
    (db : DB) :
    (∀ requestor,
      db.userCollection.find? (fun u => u.email == requestorEmail) =
        some requestor →
      requestor.role ≠ "admin" →
      mainPutUserRole requestorEmail idParam input db = (.forbidden, db)) ∧
    (∀ (target : User) (pre post : List User),
      funcIsAdmin db requestorEmail = true →
      db.userCollection = pre ++ target :: post →
      (∀ y ∈ pre, y.id ≠ ObjectIDFromHex idParam) →
      target.id = ObjectIDFromHex idParam →
      mainPutUserRole requestorEmail idParam input db =
        (.ok, { db with userCollection :=
            pre ++ { target with role := input.role } :: post })) := by
  constructor
  · intro requestor hreq hrole
    have hadm : funcIsAdmin db requestorEmail = false := by
      simp [funcIsAdmin, hreq, hrole]
    simp [mainPutUserRole, hadm]
  · intro target pre post hadm hsplit hpre hid
    have hx : (fun u => u.id == ObjectIDFromHex idParam) target = true := by
      simp [hid]
    have hpre' : ∀ y ∈ pre,
        (fun u => u.id == ObjectIDFromHex idParam) y = false := by
      intro y hy
      simpa using hpre y hy
    have hops := firstMatch_ops (fun u => u.id == ObjectIDFromHex idParam)
      (fun u => { u with role := input.role }) target hx pre post hpre'
    have hupd : updateFirst (fun u => u.id == ObjectIDFromHex idParam)
        (fun u => { u with role := input.role }) db.userCollection =
        pre ++ { target with role := input.role } :: post := by
      rw [hsplit]; exact hops.2.1
    simp [mainPutUserRole, hadm, hupd]

/-- C8, witness: the non-admin `b@x.com` is refused; the admin
`root@x.com` writes the arbitrary string `"banana"` onto Account 2. -/
theorem C8_role_update_witness :
    mainPutUserRole "b@x.com" "000000000000000000000002" ⟨"banana"⟩
      ⟨[⟨1, "root@x.com", "p", "admin"⟩, ⟨2, "b@x.com", "q", "user"⟩], []⟩ =
      (.forbidden,
       ⟨[⟨1, "root@x.com", "p", "admin"⟩, ⟨2, "b@x.com", "q", "user"⟩], []⟩) ∧
    mainPutUserRole "root@x.com" "000000000000000000000002" ⟨"banana"⟩
      ⟨[⟨1, "root@x.com", "p", "admin"⟩, ⟨2, "b@x.com", "q", "user"⟩], []⟩ =
      (.ok,
       ⟨[⟨1, "root@x.com", "p", "admin"⟩, ⟨2, "b@x.com", "q", "banana"⟩], []⟩) := by
  constructor
  · exact (C8_role_update "b@x.com" "000000000000000000000002" ⟨"banana"⟩
      ⟨[⟨1, "root@x.com", "p", "admin"⟩, ⟨2, "b@x.com", "q", "user"⟩], []⟩).1
      ⟨2, "b@x.com", "q", "user"⟩ (by decide) (by decide)
  · exact (C8_role_update "root@x.com" "000000000000000000000002" ⟨"banana"⟩
      ⟨[⟨1, "root@x.com", "p", "admin"⟩, ⟨2, "b@x.com", "q", "user"⟩], []⟩).2
      ⟨2, "b@x.com", "q", "user"⟩ [⟨1, "root@x.com", "p", "admin"⟩] []
      (by decide) (by decide) (by decide) (by decide)

/-- C9, counterexample: in `api/api.go`, a malformed id does fall through
to the all-zeros identifier, but the resolved requestor does NOT receive
404 — the handler has no NotFound branch; a resolved admin receives
200. -/
theorem C9_counterexample :
    isValidObjectIDHex "not-a-hex-id" = false ∧
    ObjectIDFromHex "not-a-hex-id" = 0 ∧
    (DB.userCollection ⟨[⟨1, "a@x.com", "p", "admin"⟩], []⟩).find?
      (fun u => u.email == "a@x.com") = some ⟨1, "a@x.com", "p", "admin"⟩ ∧
    apiPutLocation "not-a-hex-id" "a@x.com" ⟨0, "m", "d", ⟨3, 4⟩, "e", "f"⟩
      ⟨[⟨1, "a@x.com", "p", "admin"⟩], []⟩ =
      (.ok, ⟨[⟨1, "a@x.com", "p", "admin"⟩], []⟩) ∧
    MutResult.ok ≠ MutResult.notFound := by
  refine ⟨by decide, by decide, by decide, by decide, by decide⟩

/-- C9, amended: an id path parameter that is not a valid 24-character hex
ObjectID never yields a 400 — the parse error is discarded (the embedded
result type of these handlers has no MalformedInput outcome, mirroring the
source, which writes no 400 on this path) and the request proceeds exactly
as a request for the all-zeros identifier, in all four update/delete
handlers.  With no record stored under the zero identifier, the resolved
requestor then receives 404 in the `main.go` variant; the `api/api.go`
variant has no 404 branch and answers 403 or 200 instead. -/
theorem C9_invalid_objectid (idParam requestorEmail : String)
    (updateData : Location) (db : DB)
    (hinvalid : isValidObjectIDHex idParam = false) :
    ObjectIDFromHex idParam = 0 ∧
    mainPutLocation idParam requestorEmail updateData db =
      mainPutLocation "000000000000000000000000" requestorEmail updateData db ∧
    mainDeleteLocation idParam requestorEmail db =
      mainDeleteLocation "000000000000000000000000" requestorEmail db ∧
    apiPutLocation idParam requestorEmail updateData db =
      apiPutLocation "000000000000000000000000" requestorEmail updateData db ∧
    apiDeleteLocation idParam requestorEmail db =
      apiDeleteLocation "000000000000000000000000" requestorEmail db ∧
    (∀ requestor,
      db.userCollection.find? (fun u => u.email == requestorEmail) =
        some requestor →
      (∀ l ∈ db.geoCollection, l.id ≠ 0) →
      mainPutLocation idParam requestorEmail updateData db = (.notFound, db) ∧
      mainDeleteLocation idParam requestorEmail db = (.notFound, db) ∧
      (apiPutLocation idParam requestorEmail updateData db).1 ≠ .notFound ∧
      (apiDeleteLocation idParam requestorEmail db).1 ≠ .notFound) := by
  have h0 : ObjectIDFromHex idParam = 0 := by
    simp [ObjectIDFromHex, hinvalid]
  have hz : ObjectIDFromHex "000000000000000000000000" = 0 := by decide
  refine ⟨h0, ?_, ?_, ?_, ?_, ?_⟩
  · simp only [mainPutLocation, h0, hz]
  · simp only [mainDeleteLocation, h0, hz]
  · simp only [apiPutLocation, h0, hz]
  · simp only [apiDeleteLocation, h0, hz]
  · intro requestor hreq hzero
    have hfind : db.geoCollection.find?
        (fun l => l.id == ObjectIDFromHex idParam) = none := by
      rw [List.find?_eq_none]
      intro l hl
      rw [h0]
      simpa using hzero l hl
    refine ⟨?_, ?_, ?_, ?_⟩
    · simp [mainPutLocation, hreq, hfind]
    · simp [mainDeleteLocation, hreq, hfind]
    · simp only [apiPutLocation, hreq, hfind, Option.getD_some, Option.getD_none]
      split <;> simp
    · simp only [apiDeleteLocation, hreq, hfind, Option.getD_some, Option.getD_none]
      split <;> simp

/-- C9, witness: the malformed id `"!!invalid!!"` behaves as the all-zeros
id, and with no zero-id record the resolved requestor gets 404 from
`main.go` but not from `api/api.go`. -/
theorem C9_invalid_objectid_witness :
    ObjectIDFromHex "!!invalid!!" = 0 ∧
    mainPutLocation "!!invalid!!" "a@x.com" ⟨0, "m", "d", ⟨3, 4⟩, "e", "f"⟩
      ⟨[⟨1, "a@x.com", "p", "user"⟩], [⟨5, "n", "c", ⟨1, 2⟩, "ad", "a@x.com"⟩]⟩ =
      (.notFound,
       ⟨[⟨1, "a@x.com", "p", "user"⟩], [⟨5, "n", "c", ⟨1, 2⟩, "ad", "a@x.com"⟩]⟩) ∧
    (apiPutLocation "!!invalid!!" "a@x.com" ⟨0, "m", "d", ⟨3, 4⟩, "e", "f"⟩
      ⟨[⟨1, "a@x.com", "p", "user"⟩], [⟨5, "n", "c", ⟨1, 2⟩, "ad", "a@x.com"⟩]⟩).1 ≠
      .notFound := by
  have h := C9_invalid_objectid "!!invalid!!" "a@x.com"
    ⟨0, "m", "d", ⟨3, 4⟩, "e", "f"⟩
    ⟨[⟨1, "a@x.com", "p", "user"⟩], [⟨5, "n", "c", ⟨1, 2⟩, "ad", "a@x.com"⟩]⟩
    (by decide)
  have h' := h.2.2.2.2.2 ⟨1, "a@x.com", "p", "user"⟩ (by decide) (by decide)
  exact ⟨h.1, h'.1, h'.2.2.1⟩

/-- C10, counterexample: an EMPTY identity header is not always rejected —
if an Account with the empty email exists and holds role `"admin"`, the
empty header resolves to it and `GET /users` answers 200, not 403. -/
theorem C10_counterexample :
    mainGetUsers "" ⟨[⟨1, "", "p", "admin"⟩], []⟩ =
      .ok (some [⟨1, "", "p", "admin"⟩]) ∧
    UsersResult.ok (some [⟨1, "", "p", "admin"⟩]) ≠ UsersResult.forbidden := by
  refine ⟨by decide, by decide⟩

/-- C10, amended: the admin user-management handlers have no 401 outcome
at all (their embedded result types carry only success and 403, mirroring
the source, which writes no 401 on these paths); every request whose
identity header matches no Account — in particular an absent or empty
header when no Account bears the empty email — decodes the requestor to
the zero-value account, whose role `""` is not `"admin"`, and is rejected
with 403 only, stores untouched.  An absent or empty header can escape the
rejection exactly when an Account with the empty email exists and has role
`"admin"`. -/
theorem C10_admin_guard (requestorEmail idParam : String) (input : RoleInput)
    (db : DB)
    (hnone : db.userCollection.find? (fun u => u.email == requestorEmail) =
      none) :
    funcIsAdmin db requestorEmail = false ∧
    mainGetUsers requestorEmail db = .forbidden ∧
    mainPutUserRole requestorEmail idParam input db = (.forbidden, db) ∧
    mainDeleteUser requestorEmail idParam db = (.forbidden, db) := by
  have hadm : funcIsAdmin db requestorEmail = false := by
    simp [funcIsAdmin, hnone, zeroUser]
  exact ⟨hadm, by simp [mainGetUsers, hadm], by simp [mainPutUserRole, hadm],
    by simp [mainDeleteUser, hadm]⟩

/-- C10, witness: the unregistered header `ghost@x.com` is refused by all
three admin operations. -/
theorem C10_admin_guard_witness :
    mainGetUsers "ghost@x.com" ⟨[⟨1, "a@x.com", "p", "admin"⟩], []⟩ =
      .forbidden ∧
    mainPutUserRole "ghost@x.com" "000000000000000000000001" ⟨"admin"⟩
      ⟨[⟨1, "a@x.com", "p", "admin"⟩], []⟩ =
      (.forbidden, ⟨[⟨1, "a@x.com", "p", "admin"⟩], []⟩) ∧
    mainDeleteUser "ghost@x.com" "000000000000000000000001"
      ⟨[⟨1, "a@x.com", "p", "admin"⟩], []⟩ =
      (.forbidden, ⟨[⟨1, "a@x.com", "p", "admin"⟩], []⟩) := by
  have h := C10_admin_guard "ghost@x.com" "000000000000000000000001" ⟨"admin"⟩
    ⟨[⟨1, "a@x.com", "p", "admin"⟩], []⟩ (by decide)
  exact ⟨h.2.1, h.2.2.1, h.2.2.2⟩
